import Mathlib

/-!
# poke_bot persistence layer (`db.go`)

A shallow embedding of the functions of `db.go` over an explicit model of the
document store they talk to.

## The store

The three collections are lists of documents in natural (insertion) order.

* `users` documents are written only by the two upserts of `db.go`
  (`userPlusOneMessage`, `userMakeVote`), so a document has the integer `uid`
  of the upsert filter and each of `counter`, `voteCounter`, `username`,
  `altUsername` is either absent or has the type its writer gives it.
* `messages` documents are written only by `saveMessage` from a `ChatMessage`
  struct, so every field is present.
* `settings` documents carry the three fields a `DyncmicSetting` is read from
  and written to; each one is absent or holds an arbitrary value (`BVal`), so
  rows that fail to decode are part of the model.

Store integers (BSON int32 / int64, compared and added by value) are `Int`;
the int64 range is checked where the server or the driver checks it.
Go `int` is 64 bit; `uint32` arithmetic is `Nat` arithmetic `% 2^32`.

## Behaviour of the server and the driver that the model follows

* `UpdateOne` with upsert updates the first document the filter finds; when
  there is none it inserts the equality fields of the filter with the update
  applied. The top-level entries of an update document are applied in order.
* `$inc` creates an absent field with the amount and rejects a result outside
  int64; the functions of `db.go` log a rejected write and go on.
* `FindOne` returns the first matching document in natural order, and
  `Decode` on no document is `ErrNoDocuments`.
* Decoding into an unsigned Go field fails for a negative value and for a
  value above the maximum of the field; a field absent from the document keeps
  the zero value; struct fields are found by their lower-cased names, also
  for a stored key with capitals.
* `$unwind` without `preserveNullAndEmptyArrays` emits nothing for an empty
  array. A find limit of 0 is no limit. `{$natural: -1}` is reverse insertion
  order.

Errors of the connection itself are outside the model.
-/

namespace PokeBot

/-! ## Data model (`db.go` lines 33-64) -/

/-- The constant `VOTE_RATING_MULTIPLY`. -/
def VOTE_RATING_MULTIPLY : Nat := 10

/-- Go `UserRecord` (the `_id` field is not modelled). `Counter` and
`VoteCounter` are `uint32`: values below `2^32`. -/
structure UserRecord where
  Uid : Int
  Counter : Nat
  VoteCounter : Nat
  Username : String
  AltUsername : String
deriving DecidableEq, Repr

/-- Go `ChatMessage`. `Date` is `uint64`. -/
structure ChatMessage where
  MessageID : Int
  ChatID : Int
  UserID : Int
  UserName : String
  Text : String
  Date : Nat
deriving DecidableEq, Repr

/-- Go `ScoreResult`. -/
structure ScoreResult where
  Rating : Int
  Userid : Int
deriving DecidableEq, Repr

/-- Go `DyncmicSetting`. A nil and an empty `LogRecipients` slice are both
the empty list. -/
structure DyncmicSetting where
  ChatID : Int
  Pause : Bool
  LogRecipients : List Int
deriving DecidableEq, Repr

/-! ## Store model -/

/-- A document of the `users` collection. -/
structure UserDoc where
  uid : Int
  counter : Option Int
  voteCounter : Option Int
  username : Option String
  altUsername : Option String
deriving DecidableEq, Repr

/-- A stored value of a `settings` field: an integer, a boolean, a string, an
array of integers, or null. -/
inductive BVal where
  | int (n : Int)
  | bool (b : Bool)
  | str (s : String)
  | ints (l : List Int)
  | null
deriving DecidableEq, Repr

/-- A document of the `settings` collection: the fields `chatid`, `pause`
and `logrecipients`, each possibly absent. -/
structure SettingsDoc where
  chatid : Option BVal
  pause : Option BVal
  logrecipients : Option BVal
deriving DecidableEq, Repr

/-- The database: the three collections `db.go` reads and writes, each in
natural order (oldest document first). -/
structure Store where
  users : List UserDoc
  messages : List ChatMessage
  settings : List SettingsDoc
deriving DecidableEq, Repr

/-- The errors the functions of `db.go` return. -/
inductive DbError where
  /-- The driver error `mongo.ErrNoDocuments` of `FindOne(...).Decode`. -/
  | noDocuments
  /-- A stored value does not fit the Go field it is decoded into. -/
  | decodeFailure
  /-- The error value built by `errors.New` in `getRatingFromMessage`. -/
  | cantFindMessage
  /-- The server rejected a write. -/
  | writeFailure
deriving DecidableEq, Repr

/-- Whether an integer is in the int64 range. -/
def fitsInt64 (n : Int) : Bool := decide (-(2:Int)^63 ≤ n) && decide (n < (2:Int)^63)

/-- Whether an integer is in the uint32 range. -/
def fitsUint32 (n : Int) : Bool := decide (0 ≤ n) && decide (n < (2:Int)^32)

/-! ## Updates of the users collection

An update document is the ordered list of its top-level entries, as the
`bson.D` of the source is; the server applies every entry in order, so two
`$set` entries on different fields both take effect. -/

/-- The numeric fields `$inc` is used on. -/
inductive NumField where
  | counter
  | voteCounter
deriving DecidableEq, Repr

/-- The string fields `$set` is used on. -/
inductive StrField where
  | username
  | altUsername
deriving DecidableEq, Repr

/-- One top-level entry of an update document on `users`. -/
inductive UpdateOp where
  /-- The entry `{"$inc": {field: amount}}`. -/
  | inc (field : NumField) (amount : Int)
  /-- The entry `{"$set": {field: value}}`. -/
  | set (field : StrField) (value : String)
deriving DecidableEq, Repr

/-- Server `$inc` on one field: an absent field is created with the amount;
a sum outside int64 is rejected. -/
def incValue (cur : Option Int) (amount : Int) : Except DbError Int :=
  let r := cur.getD 0 + amount
  if fitsInt64 r then .ok r else .error .writeFailure

/-- Apply one update entry to a user document. -/
def applyOp (d : UserDoc) : UpdateOp → Except DbError UserDoc
  | .inc .counter a => (incValue d.counter a).map (fun r => { d with counter := some r })
  | .inc .voteCounter a => (incValue d.voteCounter a).map (fun r => { d with voteCounter := some r })
  | .set .username v => .ok { d with username := some v }
  | .set .altUsername v => .ok { d with altUsername := some v }

/-- Apply all entries of an update document, in order. -/
def applyUpdate (d : UserDoc) : List UpdateOp → Except DbError UserDoc
  | [] => .ok d
  | op :: ops =>
    match applyOp d op with
    | .ok d1 => applyUpdate d1 ops
    | .error e => .error e

/-- The call `usersCollection.UpdateOne(ctx, {"uid": uID}, update, upserOptions)`:
the first document with that uid is updated in place; when there is none the
document `{uid: uID}` of the filter is updated and inserted (upsert). -/
def usersUpdateOne (uID : Int) (update : List UpdateOp) : List UserDoc → Except DbError (List UserDoc)
  | [] =>
    (applyUpdate { uid := uID, counter := none, voteCounter := none,
                   username := none, altUsername := none } update).map (fun d => [d])
  | d :: rest =>
    if d.uid = uID then (applyUpdate d update).map (fun d1 => d1 :: rest)
    else (usersUpdateOne uID update rest).map (fun r => d :: r)

/-- Driver decoding of a stored integer into a `uint32` field: an absent
field leaves the zero value, a value outside `0 .. 2^32-1` is an error. -/
def decodeUint32 : Option Int → Except DbError Nat
  | none => .ok 0
  | some n => if fitsUint32 n then .ok n.toNat else .error .decodeFailure

/-- The statement `result.Decode(&user)` for a found user document. Field
names are matched case-insensitively, so `voteCounter` and `altUsername`
reach `VoteCounter` and `AltUsername`. -/
def decodeUser (d : UserDoc) : Except DbError UserRecord :=
  match decodeUint32 d.counter, decodeUint32 d.voteCounter with
  | .ok c, .ok v =>
    .ok { Uid := d.uid, Counter := c, VoteCounter := v,
          Username := d.username.getD "", AltUsername := d.altUsername.getD "" }
  | _, _ => .error .decodeFailure

/-- The statement `FindOne(ctx, filter)` followed by `Decode(&user)`: the
first matching document in natural order, `ErrNoDocuments` when none. -/
def findOneUser (p : UserDoc → Bool) (users : List UserDoc) : Except DbError UserRecord :=
  match users.find? p with
  | none => .error .noDocuments
  | some d => decodeUser d

/-! ## User ledger (`db.go` lines 84-180) -/

/-- The function `userPlusOneMessage`. The update document is built as in the
source: the `$inc` entry, then a `$set` of the lower-cased username when
`len(username) != 0`, then a `$set` of `altUsername`. A write error is logged
and the store stays as it was. `toLower` stands for `strings.ToLower`. -/
def userPlusOneMessage (toLower : String → String) (db : Store) (uID : Int)
    (username altname : String) : Store :=
  let update : List UpdateOp := [UpdateOp.inc .counter 1]
  let update := if username.length != 0 then
      update ++ [UpdateOp.set .username (toLower username)] else update
  let update := update ++ [UpdateOp.set .altUsername altname]
  match usersUpdateOne uID update db.users with
  | .ok us => { db with users := us }
  | .error _ => db

/-- The function `userMakeVote`. -/
def userMakeVote (db : Store) (uID : Int) (amount : Int) : Store :=
  let update : List UpdateOp := [UpdateOp.inc .voteCounter amount]
  match usersUpdateOne uID update db.users with
  | .ok us => { db with users := us }
  | .error _ => db

/-- The expression `int(user.Counter + user.VoteCounter*VOTE_RATING_MULTIPLY)`:
the sum and the product are `uint32` operations, the conversion to `int`
comes last. -/
def ratingOf (user : UserRecord) : Int :=
  (((user.Counter + (user.VoteCounter * VOTE_RATING_MULTIPLY) % 2^32) % 2^32 : Nat) : Int)

/-- The function `getRatingFromUserID`. -/
def getRatingFromUserID (db : Store) (uID : Int) : Except DbError ScoreResult :=
  match findOneUser (fun d => decide (d.uid = uID)) db.users with
  | .error e => .error e
  | .ok user => .ok { Rating := ratingOf user, Userid := user.Uid }

/-- The function `getRatingFromUsername`. -/
def getRatingFromUsername (toLower : String → String) (db : Store) (username : String) :
    Except DbError ScoreResult :=
  match findOneUser (fun d => decide (d.username = some (toLower username))) db.users with
  | .error e => .error e
  | .ok user => .ok { Rating := ratingOf user, Userid := user.Uid }

/-- The function `getUser`. -/
def getUser (db : Store) (uID : Int) : Except DbError UserRecord :=
  findOneUser (fun d => decide (d.uid = uID)) db.users

/-! ## Message ledger (`db.go` lines 186-291, 328-345) -/

/-- The function `saveMessage`: `InsertOne` appends the encoded struct. The
driver refuses to encode a `uint64` above the int64 maximum; the error is
logged and nothing is inserted. -/
def saveMessage (db : Store) (message : ChatMessage) : Store :=
  if message.Date < 2^63 then { db with messages := db.messages ++ [message] } else db

/-- Pipeline stage `$match {chatid, messageid}`. -/
def getMessage (chatID messageID : Int) (messages : List ChatMessage) : List ChatMessage :=
  messages.filter (fun m => decide (m.ChatID = chatID) && decide (m.MessageID = messageID))

/-- Pipeline stage `$lookup {from: users, localField: userid, foreignField: uid,
as: result}`: every message gets the array of the user documents of its author. -/
def lookupUser (users : List UserDoc) (docs : List ChatMessage) :
    List (ChatMessage × List UserDoc) :=
  docs.map (fun m => (m, users.filter (fun u => decide (u.uid = m.UserID))))

/-- Pipeline stage `$unwind {path: "$result"}`: one output document per
element of the array; with no `preserveNullAndEmptyArrays` option a document
whose array is empty produces no output. -/
def unwindUser (docs : List (ChatMessage × List UserDoc)) : List (ChatMessage × UserDoc) :=
  docs.flatMap (fun p => p.2.map (fun u => (p.1, u)))

/-- The operator `$ifNull [field, 0]`. -/
def ifNull (v : Option Int) (dflt : Int) : Int := v.getD dflt

/-- Pipeline stage `$set {rating: $add [ifNull(result.counter, 0),
$multiply [ifNull(result.voteCounter, 0), VOTE_RATING_MULTIPLY]]}`, in the
integer arithmetic of the store. -/
def calculateRating (docs : List (ChatMessage × UserDoc)) : List (ChatMessage × UserDoc × Int) :=
  docs.map (fun p =>
    (p.1, p.2, ifNull p.2.counter 0 + ifNull p.2.voteCounter 0 * (VOTE_RATING_MULTIPLY : Int)))

/-- Pipeline stage `$project {rating: 1, userid: 1}`: the computed rating and
the `userid` field of the message. -/
def clearOutput (docs : List (ChatMessage × UserDoc × Int)) : List (Int × Int) :=
  docs.map (fun p => (p.2.2, p.1.UserID))

/-- The call `cursor.All(ctx, &results)` into `[]ScoreResult`: a rating that is
no int64 does not decode into the Go `int`, and `All` fails as a whole. -/
def decodeScores : List (Int × Int) → Except DbError (List ScoreResult)
  | [] => .ok []
  | (r, u) :: rest =>
    if fitsInt64 r then
      match decodeScores rest with
      | .ok l => .ok ({ Rating := r, Userid := u } :: l)
      | .error e => .error e
    else .error .decodeFailure

/-- The function `getRatingFromMessage`: the five-stage pipeline over
`messages`, then the first decoded result; an `All` failure and an empty
result both give the same not-found error. -/
def getRatingFromMessage (db : Store) (chatID messageID : Int) : Except DbError ScoreResult :=
  let cursor := clearOutput (calculateRating (unwindUser (lookupUser db.users
    (getMessage chatID messageID db.messages))))
  match decodeScores cursor with
  | .error _ => .error .cantFindMessage
  | .ok [] => .error .cantFindMessage
  | .ok (r :: _) => .ok r

/-- The function `getMessageInfo`. -/
def getMessageInfo (db : Store) (chatID messageID : Int) : Except DbError ChatMessage :=
  match db.messages.find? (fun m => decide (m.ChatID = chatID) && decide (m.MessageID = messageID)) with
  | none => .error .noDocuments
  | some m => .ok m

/-- The `limit` of a find on the server: a limit of zero means no limit. -/
def applyLimit (limit : Nat) (docs : List ChatMessage) : List ChatMessage :=
  if limit = 0 then docs else docs.take limit

/-- The function `getUserLastNthMessages`: filter on `chatid` and `userid`,
sort `{$natural: -1}`, limit `int64(amaount)`. `amaount` is a `uint16`, so the
conversion keeps its value. -/
def getUserLastNthMessages (db : Store) (userID chatID : Int) (amaount : Nat) :
    Except DbError (List ChatMessage) :=
  let found := db.messages.filter (fun m => decide (m.ChatID = chatID) && decide (m.UserID = userID))
  .ok (applyLimit amaount found.reverse)

/-! ## Settings store (`db.go` lines 293-326) -/

/-- The filter `{"chatid": chatID}` on a settings document: the field is that
integer, or an array that contains it. -/
def matchesChatID (chatID : Int) (d : SettingsDoc) : Bool :=
  match d.chatid with
  | some (.int n) => decide (n = chatID)
  | some (.ints l) => l.contains chatID
  | _ => false

/-- Driver decoding into an `int64` field: integers, booleans (as 0 / 1) and
null (zero value) are accepted, an absent field leaves the zero value. -/
def decodeInt64 : Option BVal → Except DbError Int
  | none => .ok 0
  | some (.int n) => .ok n
  | some (.bool b) => .ok (if b then 1 else 0)
  | some .null => .ok 0
  | some _ => .error .decodeFailure

/-- Driver decoding into a `bool` field: booleans, integers (non-zero is
true) and null are accepted. -/
def decodeBool : Option BVal → Except DbError Bool
  | none => .ok false
  | some (.bool b) => .ok b
  | some (.int n) => .ok (decide (n ≠ 0))
  | some .null => .ok false
  | some _ => .error .decodeFailure

/-- Driver decoding into a `[]int64` field: an array of integers or null. -/
def decodeInt64Slice : Option BVal → Except DbError (List Int)
  | none => .ok []
  | some (.ints l) => .ok l
  | some .null => .ok []
  | some _ => .error .decodeFailure

/-- The statement `cursor.Decode(&result)` into a fresh `DyncmicSetting`. -/
def decodeSetting (d : SettingsDoc) : Except DbError DyncmicSetting :=
  match decodeInt64 d.chatid, decodeBool d.pause, decodeInt64Slice d.logrecipients with
  | .ok c, .ok p, .ok l => .ok { ChatID := c, Pause := p, LogRecipients := l }
  | _, _, _ => .error .decodeFailure

/-- A Go `map[int64]*DyncmicSetting`, as an association list without
repeated keys; its size is its length. Every stored pointer is to a variable
of its own (`var result` is declared inside the loop body), so an entry is
the value it was stored with. -/
abbrev SettingsMap := List (Int × DyncmicSetting)

/-- The assignment `ret[k] = v`. -/
def mapSet : SettingsMap → Int → DyncmicSetting → SettingsMap
  | [], k, v => [(k, v)]
  | (k1, v1) :: t, k, v => if k1 = k then (k, v) :: t else (k1, v1) :: mapSet t k v

/-- The lookup `ret[k]`. -/
def mapGet : SettingsMap → Int → Option DyncmicSetting
  | [], _ => none
  | (k1, v1) :: t, k => if k1 = k then some v1 else mapGet t k

/-- The loop of `readChatsSettings` from a given map: a row that fails to
decode is logged and skipped, any other row is stored under its `ChatID`. -/
def readRows (ret : SettingsMap) : List SettingsDoc → SettingsMap
  | [] => ret
  | row :: rows =>
    match decodeSetting row with
    | .error _ => readRows ret rows
    | .ok result => readRows (mapSet ret result.ChatID result) rows

/-- The function `readChatsSettings`, once `Find` has returned a cursor. -/
def readChatsSettings (db : Store) : SettingsMap := readRows [] db.settings

/-- The update `{"$set": settings}`: the encoded struct has the fields
`chatid`, `pause` and `logrecipients`, each of which is set. -/
def setSettings (d : SettingsDoc) (settings : DyncmicSetting) : SettingsDoc :=
  { d with chatid := some (.int settings.ChatID),
           pause := some (.bool settings.Pause),
           logrecipients := some (.ints settings.LogRecipients) }

/-- The call `chatSettingsCollection.UpdateOne(ctx, {"chatid": chatID},
{"$set": settings}, upserOptions)`: the first matching document is updated;
when there is none the document `{chatid: chatID}` of the filter is updated
and inserted. -/
def settingsUpdateOne (chatID : Int) (settings : DyncmicSetting) : List SettingsDoc → List SettingsDoc
  | [] => [setSettings { chatid := some (.int chatID), pause := none, logrecipients := none } settings]
  | d :: rest =>
    if matchesChatID chatID d then setSettings d settings :: rest
    else d :: settingsUpdateOne chatID settings rest

/-- The function `writeChatSettings`. -/
def writeChatSettings (db : Store) (chatID : Int) (settings : DyncmicSetting) : Store :=
  { db with settings := settingsUpdateOne chatID settings db.settings }

/-- The empty database. -/
def emptyStore : Store := { users := [], messages := [], settings := [] }

/-! ## Call sequences and example data -/

/-- Sequential calls `userPlusOneMessage(uID, username_i, altname_i)`, one for
each pair of names, with no other write in between. -/
def plusOneMessages (toLower : String → String) (db : Store) (uID : Int) :
    List (String × String) → Store
  | [] => db
  | (username, altname) :: rest =>
    plusOneMessages toLower (userPlusOneMessage toLower db uID username altname) uID rest

/-- Sequential calls `userMakeVote(uID, a_i)`, one for each amount. -/
def makeVotes (db : Store) (uID : Int) : List Int → Store
  | [] => db
  | a :: rest => makeVotes (userMakeVote db uID a) uID rest

/-- The ASCII part of `strings.ToLower`, used where a concrete lower-casing
function is needed. -/
def asciiToLower (s : String) : String := String.mk (s.data.map Char.toLower)

deriving instance DecidableEq for Except

/-- A message of user 5 in chat 7. -/
def exampleMessage (messageID : Int) (text : String) : ChatMessage :=
  { MessageID := messageID, ChatID := 7, UserID := 5, UserName := "alice", Text := text, Date := 1700000000 }

/-- A store with one message whose author has no user record. -/
def orphanMessageStore : Store := saveMessage emptyStore (exampleMessage 1 "hi")

/-- A store with three messages of user 5 in chat 7 and one of another user. -/
def threeMessageStore : Store :=
  saveMessage (saveMessage (saveMessage (saveMessage emptyStore (exampleMessage 1 "m1"))
    { MessageID := 2, ChatID := 7, UserID := 6, UserName := "bob", Text := "other", Date := 1700000001 })
    (exampleMessage 3 "m2")) (exampleMessage 4 "m3")

/-- A store reached by five messages of user 5, one vote of 429496730 for that
user, and a saved message of the user. -/
def bigVoteStore : Store :=
  saveMessage (userMakeVote (plusOneMessages asciiToLower emptyStore 5
    [("Alice", "Al"), ("Alice", "Al"), ("Alice", "Al"), ("Alice", "Al"), ("Alice", "Al")]) 5 429496730)
    (exampleMessage 1 "hi")

/-- A store reached by one message of user 5, one vote of -2 for that user,
and a saved message of the user. -/
def negativeVoteStore : Store :=
  saveMessage (userMakeVote (userPlusOneMessage asciiToLower emptyStore 5 "Alice" "Al") 5 (-2))
    (exampleMessage 1 "hi")

/-! ## Proof vocabulary for upserts -/

/-- The document an upsert on `{uid: uID}` updates: the first stored document
with that uid, or the fresh document of the filter. -/
def upsertTarget (uID : Int) : List UserDoc → UserDoc
  | [] => { uid := uID, counter := none, voteCounter := none, username := none, altUsername := none }
  | d :: rest => if d.uid = uID then d else upsertTarget uID rest

/-- The collection after the upsert target has been replaced by `d1`. -/
def upsertPut (uID : Int) (d1 : UserDoc) : List UserDoc → List UserDoc
  | [] => [d1]
  | d :: rest => if d.uid = uID then d1 :: rest else d :: upsertPut uID d1 rest

/-- The effect of the update document of `userPlusOneMessage` on a document. -/
def plusOneDoc (toLower : String → String) (d : UserDoc) (username altname : String) : UserDoc :=
  { d with counter := some (d.counter.getD 0 + 1),
           username := if username.length != 0 then some (toLower username) else d.username,
           altUsername := some altname }

/-- Whether every running sum `acc + a_1 + ... + a_i` is an int64, that is,
whether no `$inc` of the sequence is rejected by the server. -/
def runningSumsFit (acc : Int) : List Int → Bool
  | [] => true
  | a :: rest => fitsInt64 (acc + a) && runningSumsFit (acc + a) rest

/-- A store in which user 5 has received one vote of -1 and has no other data. -/
def downvotedStore : Store := userMakeVote emptyStore 5 (-1)

/-! ## Proof vocabulary for the settings scan -/

/-- The settings a scan decodes, in scan order: the rows that fail to decode
are left out. -/
def decodedRows : List SettingsDoc → List DyncmicSetting
  | [] => []
  | row :: rows =>
    match decodeSetting row with
    | .error _ => decodedRows rows
    | .ok s => s :: decodedRows rows

/-- The last setting of a list with the given `ChatID`. -/
def lastFor (k : Int) : List DyncmicSetting → Option DyncmicSetting
  | [] => none
  | s :: rest =>
    match lastFor k rest with
    | some x => some x
    | none => if s.ChatID = k then some s else none

/-- The fold of the scan loop over already decoded settings. -/
def storeAll (ret : SettingsMap) : List DyncmicSetting → SettingsMap
  | [] => ret
  | s :: rest => storeAll (mapSet ret s.ChatID s) rest

/-- Whether a stored row is a settings document for chat `k`: the filter
`{"chatid": k}` finds it, or it decodes to a setting with `ChatID == k`. -/
def isDocumentFor (k : Int) (row : SettingsDoc) : Bool :=
  matchesChatID k row ||
    (match decodeSetting row with
     | .ok s => decide (s.ChatID = k)
     | .error _ => false)

/-- Settings rows `{chatA: pause = true}` and `{chatB: pause = false}` with
chatA = 1 and chatB = 2. -/
def twoChatStore : Store :=
  writeChatSettings (writeChatSettings emptyStore 1 { ChatID := 1, Pause := true, LogRecipients := [] })
    2 { ChatID := 2, Pause := false, LogRecipients := [10, 11] }

/-- A settings row whose `pause` field is a string: it does not decode. -/
def corruptRow : SettingsDoc :=
  { chatid := some (.int 3), pause := some (.str "yes"), logrecipients := none }

/-- The two settings rows of `twoChatStore` with `corruptRow` between them. -/
def corruptedStore : Store :=
  { emptyStore with settings :=
      twoChatStore.settings.take 1 ++ corruptRow :: twoChatStore.settings.drop 1 }

/-- Whether `cursor.Decode` succeeds on a row. -/
def rowDecodes (row : SettingsDoc) : Bool :=
  match decodeSetting row with
  | .ok _ => true
  | .error _ => false

/-! ## Message pipeline -/

theorem getMessage_eq_nil (chatID messageID : Int) (messages : List ChatMessage)
    (h : ∀ m ∈ messages, ¬ (m.ChatID = chatID ∧ m.MessageID = messageID)) :
    getMessage chatID messageID messages = [] := by
  unfold getMessage
  rw [List.filter_eq_nil_iff]
  intro m hm
  simpa using fun h1 h2 => h m hm ⟨h1, h2⟩

theorem mem_getMessage {chatID messageID : Int} {messages : List ChatMessage} {m : ChatMessage}
    (h : m ∈ getMessage chatID messageID messages) :
    m ∈ messages ∧ m.ChatID = chatID ∧ m.MessageID = messageID := by
  unfold getMessage at h
  rw [List.mem_filter] at h
  simpa using h

theorem unwind_lookup_eq_nil (users : List UserDoc) (docs : List ChatMessage)
    (h : ∀ m ∈ docs, ∀ u ∈ users, u.uid ≠ m.UserID) :
    unwindUser (lookupUser users docs) = [] := by
  induction docs with
  | nil => rfl
  | cons m rest ih =>
    have h1 : users.filter (fun u => decide (u.uid = m.UserID)) = [] := by
      rw [List.filter_eq_nil_iff]
      intro u hu
      simpa using h m (List.mem_cons_self _ _) u hu
    have h2 := ih (fun x hx => h x (List.mem_cons_of_mem _ hx))
    simp only [unwindUser, lookupUser, List.map_cons, List.flatMap_cons, h1, List.map_nil,
      List.nil_append] at h2 ⊢
    exact h2

/-- C3: when no stored message has the given chatID and messageID,
`getRatingFromMessage` returns no score and the not-found error,
whatever the users collection holds. -/
theorem getRatingFromMessage_missing_message (db : Store) (chatID messageID : Int)
    (h : ∀ m ∈ db.messages, ¬ (m.ChatID = chatID ∧ m.MessageID = messageID)) :
    getRatingFromMessage db chatID messageID = .error .cantFindMessage := by
  unfold getRatingFromMessage
  rw [getMessage_eq_nil chatID messageID db.messages h]
  rfl

/-- C3 at a concrete store: `bigVoteStore` has a user record and the message (7, 1), but no message (7, 2). -/
theorem getRatingFromMessage_missing_message_witness :
    getRatingFromMessage bigVoteStore 7 2 = .error .cantFindMessage :=
  getRatingFromMessage_missing_message bigVoteStore 7 2 (by decide)

/-- C1, as stated, fails: the store holds the message (7, 1) of user 5, no
user record has uid 5, and `getRatingFromMessage` returns the not-found
error instead of a score with rating 0. -/
theorem getRatingFromMessage_orphan_counterexample :
    (∃ m ∈ orphanMessageStore.messages, m.ChatID = 7 ∧ m.MessageID = 1 ∧ m.UserID = 5 ∧
      ∀ u ∈ orphanMessageStore.users, u.uid ≠ m.UserID) ∧
    getRatingFromMessage orphanMessageStore 7 1 = .error .cantFindMessage ∧
    getRatingFromMessage orphanMessageStore 7 1 ≠ .ok { Rating := 0, Userid := 5 } := by
  decide

/-- C1, amended: when no author of a message with the given chatID and
messageID has a user record, `getRatingFromMessage` returns the not-found
error: `$unwind` drops the message, the join is an inner join. -/
theorem getRatingFromMessage_author_without_record (db : Store) (chatID messageID : Int)
    (h : ∀ m ∈ db.messages, m.ChatID = chatID → m.MessageID = messageID →
      ∀ u ∈ db.users, u.uid ≠ m.UserID) :
    getRatingFromMessage db chatID messageID = .error .cantFindMessage := by
  unfold getRatingFromMessage
  rw [unwind_lookup_eq_nil db.users _ (fun m hm u hu =>
    h m (mem_getMessage hm).1 (mem_getMessage hm).2.1 (mem_getMessage hm).2.2 u hu)]
  rfl

/-- C1, amended, at a concrete store: the message (7, 1) exists, its author has no record, the result is the error. -/
theorem getRatingFromMessage_author_without_record_witness :
    (∃ m ∈ orphanMessageStore.messages, m.ChatID = 7 ∧ m.MessageID = 1) ∧
    getRatingFromMessage orphanMessageStore 7 1 = .error .cantFindMessage :=
  ⟨by decide, getRatingFromMessage_author_without_record orphanMessageStore 7 1 (by decide)⟩


/-! ## Recent messages -/

/-- C6, as stated, fails at limit 0: the store holds one message of user 5 in
chat 7, and `getUserLastNthMessages` with limit 0 returns that message, not
the first 0 elements of the matching messages. -/
theorem getUserLastNthMessages_limit_zero_counterexample :
    getUserLastNthMessages orphanMessageStore 5 7 0 = .ok [exampleMessage 1 "hi"] ∧
    ((orphanMessageStore.messages.filter
        (fun m => decide (m.ChatID = 7) && decide (m.UserID = 5))).reverse.take 0 = []) := by
  decide

/-- C6, amended: for a limit from 1 to 65535 the result is exactly the first
`limit` elements of the stored messages of that user and chat in reverse
insertion order; for limit 0 the store applies no limit and the result is all
of them. In both cases every returned message is a stored message of that
user and chat, and for a limit of at least 1 there are at most `limit`. -/
theorem getUserLastNthMessages_spec (db : Store) (userID chatID : Int) (amaount : Nat)
    (h : amaount < 65536) :
    (1 ≤ amaount →
      getUserLastNthMessages db userID chatID amaount =
        .ok ((db.messages.filter
          (fun m => decide (m.ChatID = chatID) && decide (m.UserID = userID))).reverse.take amaount)) ∧
    (amaount = 0 →
      getUserLastNthMessages db userID chatID amaount =
        .ok (db.messages.filter
          (fun m => decide (m.ChatID = chatID) && decide (m.UserID = userID))).reverse) ∧
    (∀ ret, getUserLastNthMessages db userID chatID amaount = .ok ret →
      (1 ≤ amaount → ret.length ≤ amaount) ∧
      ∀ m ∈ ret, m ∈ db.messages ∧ m.UserID = userID ∧ m.ChatID = chatID) := by
  have _ := h
  have hmem : ∀ m ∈ applyLimit amaount (db.messages.filter
      (fun m => decide (m.ChatID = chatID) && decide (m.UserID = userID))).reverse,
      m ∈ db.messages ∧ m.UserID = userID ∧ m.ChatID = chatID := by
    intro m hm
    have hm1 : m ∈ (db.messages.filter
        (fun m => decide (m.ChatID = chatID) && decide (m.UserID = userID))).reverse := by
      unfold applyLimit at hm
      split at hm
      · exact hm
      · exact List.mem_of_mem_take hm
    rw [List.mem_reverse, List.mem_filter] at hm1
    simp only [Bool.and_eq_true, decide_eq_true_eq] at hm1
    exact ⟨hm1.1, hm1.2.2, hm1.2.1⟩
  refine ⟨?_, ?_, ?_⟩
  · intro h1
    have h0 : amaount ≠ 0 := by omega
    simp [getUserLastNthMessages, applyLimit, h0]
  · intro h0
    simp [getUserLastNthMessages, applyLimit, h0]
  · intro ret hret
    simp only [getUserLastNthMessages, Except.ok.injEq] at hret
    subst hret
    refine ⟨?_, hmem⟩
    intro h1
    have h0 : amaount ≠ 0 := by omega
    simp only [applyLimit, h0, if_false]
    exact List.length_take_le _ _

/-- C6, amended, at the example of the claim: after inserting m1, m2, m3 for user 5 in chat 7 (and a message of another user), limit 2 returns `[m3, m2]`. -/
theorem getUserLastNthMessages_spec_witness :
    getUserLastNthMessages threeMessageStore 5 7 2 = .ok [exampleMessage 4 "m3", exampleMessage 3 "m2"] := by
  rw [(getUserLastNthMessages_spec threeMessageStore 5 7 2 (by decide)).1 (by decide)]
  decide

/-! ## Upserts on the users collection -/

theorem usersUpdateOne_eq (uID : Int) (update : List UpdateOp) (users : List UserDoc) :
    usersUpdateOne uID update users =
      (applyUpdate (upsertTarget uID users) update).map (fun d1 => upsertPut uID d1 users) := by
  induction users with
  | nil => rfl
  | cons d rest ih =>
    by_cases hd : d.uid = uID
    · simp [usersUpdateOne, upsertTarget, upsertPut, hd]
    · simp only [usersUpdateOne, upsertTarget, upsertPut, hd, if_false, ih]
      cases applyUpdate (upsertTarget uID rest) update <;> rfl

theorem upsertTarget_uid (uID : Int) (users : List UserDoc) : (upsertTarget uID users).uid = uID := by
  induction users with
  | nil => rfl
  | cons d rest ih =>
    by_cases hd : d.uid = uID
    · simp [upsertTarget, hd]
    · simp [upsertTarget, hd, ih]

theorem upsertTarget_of_absent (uID : Int) (users : List UserDoc) (h : ∀ u ∈ users, u.uid ≠ uID) :
    upsertTarget uID users =
      { uid := uID, counter := none, voteCounter := none, username := none, altUsername := none } := by
  induction users with
  | nil => rfl
  | cons d rest ih =>
    have hd : d.uid ≠ uID := h d (List.mem_cons_self _ _)
    simp only [upsertTarget, hd, if_false]
    exact ih (fun u hu => h u (List.mem_cons_of_mem _ hu))

theorem upsertPut_of_absent (uID : Int) (d1 : UserDoc) (users : List UserDoc)
    (h : ∀ u ∈ users, u.uid ≠ uID) : upsertPut uID d1 users = users ++ [d1] := by
  induction users with
  | nil => rfl
  | cons d rest ih =>
    have hd : d.uid ≠ uID := h d (List.mem_cons_self _ _)
    simp only [upsertPut, hd, if_false, List.cons_append]
    rw [ih (fun u hu => h u (List.mem_cons_of_mem _ hu))]

theorem upsertTarget_append_last (uID : Int) (base : List UserDoc) (d : UserDoc)
    (h : ∀ u ∈ base, u.uid ≠ uID) (hd : d.uid = uID) : upsertTarget uID (base ++ [d]) = d := by
  induction base with
  | nil => simp [upsertTarget, hd]
  | cons b rest ih =>
    have hb : b.uid ≠ uID := h b (List.mem_cons_self _ _)
    simp only [List.cons_append, upsertTarget, hb, if_false]
    exact ih (fun u hu => h u (List.mem_cons_of_mem _ hu))

theorem upsertPut_append_last (uID : Int) (base : List UserDoc) (d d1 : UserDoc)
    (h : ∀ u ∈ base, u.uid ≠ uID) (hd : d.uid = uID) :
    upsertPut uID d1 (base ++ [d]) = base ++ [d1] := by
  induction base with
  | nil => simp [upsertPut, hd]
  | cons b rest ih =>
    have hb : b.uid ≠ uID := h b (List.mem_cons_self _ _)
    have ih1 := ih (fun u hu => h u (List.mem_cons_of_mem _ hu))
    simp only [List.cons_append, upsertPut, hb, if_false]
    exact congrArg (List.cons b) ih1

theorem find_upsertTarget (uID : Int) (users : List UserDoc) (d : UserDoc)
    (h : users.find? (fun u => decide (u.uid = uID)) = some d) : upsertTarget uID users = d := by
  induction users with
  | nil => simp at h
  | cons b rest ih =>
    by_cases hb : b.uid = uID
    · simp [List.find?, hb] at h
      subst h
      simp [upsertTarget, hb]
    · simp only [List.find?, hb, decide_False] at h
      simp only [upsertTarget, hb, if_false]
      exact ih h

theorem find_upsertPut (uID : Int) (d1 : UserDoc) (users : List UserDoc) (h1 : d1.uid = uID) :
    (upsertPut uID d1 users).find? (fun u => decide (u.uid = uID)) = some d1 := by
  induction users with
  | nil => simp [upsertPut, List.find?, h1]
  | cons b rest ih =>
    by_cases hb : b.uid = uID
    · simp [upsertPut, List.find?, hb, h1]
    · simp [upsertPut, List.find?, hb, ih]

theorem find_none_absent (uID : Int) (users : List UserDoc)
    (h : users.find? (fun u => decide (u.uid = uID)) = none) : ∀ u ∈ users, u.uid ≠ uID := by
  intro u hu
  have := List.find?_eq_none.mp h u hu
  simpa using this

theorem applyUpdate_plusOne (toLower : String → String) (d : UserDoc) (username altname : String)
    (h : fitsInt64 (d.counter.getD 0 + 1) = true) :
    applyUpdate d ((if username.length != 0 then
        [UpdateOp.inc .counter 1] ++ [UpdateOp.set .username (toLower username)]
        else [UpdateOp.inc .counter 1]) ++ [UpdateOp.set .altUsername altname]) =
      .ok (plusOneDoc toLower d username altname) := by
  by_cases hu : username.length = 0
  · simp [hu, applyUpdate, applyOp, incValue, h, plusOneDoc, Except.map]
  · simp [hu, applyUpdate, applyOp, incValue, h, plusOneDoc, Except.map]

theorem userPlusOneMessage_users (toLower : String → String) (db : Store) (uID : Int)
    (username altname : String)
    (h : fitsInt64 ((upsertTarget uID db.users).counter.getD 0 + 1) = true) :
    (userPlusOneMessage toLower db uID username altname).users =
      upsertPut uID (plusOneDoc toLower (upsertTarget uID db.users) username altname) db.users := by
  unfold userPlusOneMessage
  simp only [usersUpdateOne_eq]
  rw [applyUpdate_plusOne toLower _ username altname h]
  rfl

theorem userMakeVote_users (db : Store) (uID : Int) (amount : Int)
    (h : fitsInt64 ((upsertTarget uID db.users).voteCounter.getD 0 + amount) = true) :
    (userMakeVote db uID amount).users =
      upsertPut uID { upsertTarget uID db.users with
        voteCounter := some ((upsertTarget uID db.users).voteCounter.getD 0 + amount) } db.users := by
  unfold userMakeVote
  simp only [usersUpdateOne_eq]
  simp [applyUpdate, applyOp, incValue, h, Except.map]

/-! ## Activity counter -/

theorem fitsInt64_iff (n : Int) : fitsInt64 n = true ↔ (-9223372036854775808 ≤ n ∧ n < 9223372036854775808) := by
  unfold fitsInt64
  simp only [Bool.and_eq_true, decide_eq_true_eq]
  norm_num

theorem fitsUint32_iff (n : Int) : fitsUint32 n = true ↔ (0 ≤ n ∧ n < 4294967296) := by
  unfold fitsUint32
  simp only [Bool.and_eq_true, decide_eq_true_eq]
  norm_num

theorem find_append_last (uID : Int) (base : List UserDoc) (d : UserDoc)
    (h : ∀ u ∈ base, u.uid ≠ uID) (hd : d.uid = uID) :
    (base ++ [d]).find? (fun u => decide (u.uid = uID)) = some d := by
  induction base with
  | nil => simp [List.find?, hd]
  | cons b rest ih =>
    have hb : b.uid ≠ uID := h b (List.mem_cons_self _ _)
    simp only [List.cons_append, List.find?, hb, decide_False]
    exact ih (fun u hu => h u (List.mem_cons_of_mem _ hu))

theorem filter_append_last (uID : Int) (base : List UserDoc) (d : UserDoc)
    (h : ∀ u ∈ base, u.uid ≠ uID) (hd : d.uid = uID) :
    (base ++ [d]).filter (fun u => decide (u.uid = uID)) = [d] := by
  have hb : base.filter (fun u => decide (u.uid = uID)) = [] := by
    rw [List.filter_eq_nil_iff]
    intro u hu
    simpa using h u hu
  simp [List.filter_append, hb, hd]

theorem plusOneMessages_existing (toLower : String → String) (uID : Int)
    (names : List (String × String)) :
    ∀ (st : Store) (base : List UserDoc) (d : UserDoc) (c : Int),
      st.users = base ++ [d] → (∀ u ∈ base, u.uid ≠ uID) → d.uid = uID →
      d.counter = some c → d.voteCounter = none → 0 ≤ c →
      c + names.length < 9223372036854775808 →
      ∃ d1, (plusOneMessages toLower st uID names).users = base ++ [d1] ∧ d1.uid = uID ∧
        d1.counter = some (c + names.length) ∧ d1.voteCounter = none := by
  induction names with
  | nil =>
    intro st base d c hst _ hd hc hv _ _
    exact ⟨d, by simpa [plusOneMessages] using hst, hd, by simpa using hc, hv⟩
  | cons p rest ih =>
    intro st base d c hst hbase hd hc hv h0 hlt
    obtain ⟨username, altname⟩ := p
    have hlen : ((username, altname) :: rest).length = rest.length + 1 := rfl
    rw [hlen] at hlt
    push_cast at hlt
    have htarget : upsertTarget uID st.users = d := by
      rw [hst]; exact upsertTarget_append_last uID base d hbase hd
    have hfit : fitsInt64 ((upsertTarget uID st.users).counter.getD 0 + 1) = true := by
      rw [htarget, hc, fitsInt64_iff]
      simp only [Option.getD_some]
      omega
    have hstep := userPlusOneMessage_users toLower st uID username altname hfit
    rw [htarget] at hstep
    rw [hst, upsertPut_append_last uID base d _ hbase hd] at hstep
    obtain ⟨d1, h1, h2, h3, h4⟩ := ih (userPlusOneMessage toLower st uID username altname) base
      (plusOneDoc toLower d username altname) (c + 1) hstep hbase hd
      (by simp [plusOneDoc, hc]) hv (by omega) (by omega)
    refine ⟨d1, by simpa [plusOneMessages] using h1, h2, ?_, h4⟩
    rw [h3, hlen]
    push_cast
    congr 1
    omega

theorem plusOneMessages_fresh (toLower : String → String) (db : Store) (uID : Int)
    (names : List (String × String)) (habsent : ∀ u ∈ db.users, u.uid ≠ uID)
    (h1 : 1 ≤ names.length) (h2 : (names.length : Int) < 9223372036854775808) :
    ∃ d1, (plusOneMessages toLower db uID names).users = db.users ++ [d1] ∧ d1.uid = uID ∧
      d1.counter = some (names.length : Int) ∧ d1.voteCounter = none := by
  cases names with
  | nil => simp at h1
  | cons p rest =>
    obtain ⟨username, altname⟩ := p
    have hlen : ((username, altname) :: rest).length = rest.length + 1 := rfl
    rw [hlen] at h2
    push_cast at h2
    have htarget := upsertTarget_of_absent uID db.users habsent
    have hfit : fitsInt64 ((upsertTarget uID db.users).counter.getD 0 + 1) = true := by
      rw [htarget, fitsInt64_iff]
      simp only [Option.getD_none]
      omega
    have hstep := userPlusOneMessage_users toLower db uID username altname hfit
    rw [htarget, upsertPut_of_absent uID _ db.users habsent] at hstep
    obtain ⟨d1, e1, e2, e3, e4⟩ := plusOneMessages_existing toLower uID rest
      (userPlusOneMessage toLower db uID username altname) db.users _ 1 hstep habsent rfl
      (by simp [plusOneDoc]) rfl (by omega) (by omega)
    refine ⟨d1, by simpa [plusOneMessages] using e1, e2, ?_, e4⟩
    rw [e3, hlen]
    push_cast
    congr 1
    omega

theorem length_upsertPut_of_found (uID : Int) (d1 d : UserDoc) (users : List UserDoc)
    (h : users.find? (fun u => decide (u.uid = uID)) = some d) :
    (upsertPut uID d1 users).length = users.length := by
  induction users with
  | nil => simp at h
  | cons b rest ih =>
    by_cases hb : b.uid = uID
    · simp [upsertPut, hb]
    · simp only [List.find?, hb, decide_False] at h
      simp [upsertPut, hb, ih h]

theorem getUser_after_too_many (toLower : String → String) (db : Store) (uID : Int)
    (names : List (String × String)) (habsent : ∀ u ∈ db.users, u.uid ≠ uID)
    (hlen : names.length = 4294967296) :
    getUser (plusOneMessages toLower db uID names) uID = .error .decodeFailure := by
  obtain ⟨d1, e1, e2, e3, _⟩ := plusOneMessages_fresh toLower db uID names habsent
    (by omega) (by omega)
  have hnot : fitsUint32 ((names.length : Nat) : Int) = false := by
    rw [hlen]; decide
  unfold getUser findOneUser
  rw [e1, find_append_last uID db.users d1 habsent e2]
  simp only [decodeUser, e3, decodeUint32, hnot]
  rfl

/-- C4, as stated, fails at N = 2^32: starting from the empty store, after
4294967296 calls of `userPlusOneMessage` for uid 5 the stored counter no
longer fits the `uint32` field `Counter` and `getUser` returns a decode error. -/
theorem plusOneMessages_uint32_counterexample :
    (∀ u ∈ emptyStore.users, u.uid ≠ 5) ∧
    1 ≤ (List.replicate 4294967296 ("alice", "Al")).length ∧
    getUser (plusOneMessages asciiToLower emptyStore 5 (List.replicate 4294967296 ("alice", "Al"))) 5
      = .error .decodeFailure := by
  have hlen : (List.replicate 4294967296 ("alice", "Al")).length = 4294967296 :=
    List.length_replicate _ _
  refine ⟨by decide, by omega, ?_⟩
  exact getUser_after_too_many asciiToLower emptyStore 5 _ (by decide) hlen

/-- C4, amended: for a uid without record and 1 <= N < 2^32 sequential calls
of `userPlusOneMessage` (any names), exactly one record with that uid exists
afterwards and `getUser` succeeds with `Counter == N`. Each single call
creates the record with counter 1 when the uid has none, and otherwise, when
the server accepts the increment, raises the stored counter of the existing
record by exactly 1 without adding a record. -/
theorem plusOneMessages_counter (toLower : String → String) (db : Store) (uID : Int)
    (names : List (String × String)) (habsent : ∀ u ∈ db.users, u.uid ≠ uID)
    (h1 : 1 ≤ names.length) (h2 : names.length < 4294967296) :
    ((plusOneMessages toLower db uID names).users.filter
      (fun u => decide (u.uid = uID))).length = 1 ∧
    (∃ r, getUser (plusOneMessages toLower db uID names) uID = .ok r ∧
      r.Counter = names.length ∧ r.Uid = uID) ∧
    (∀ (st : Store) (username altname : String), (∀ u ∈ st.users, u.uid ≠ uID) →
      ∃ d, (userPlusOneMessage toLower st uID username altname).users = st.users ++ [d] ∧
        d.uid = uID ∧ d.counter = some 1) ∧
    (∀ (st : Store) (username altname : String) (d : UserDoc),
      st.users.find? (fun u => decide (u.uid = uID)) = some d →
      fitsInt64 (d.counter.getD 0 + 1) = true →
      ∃ d1, (userPlusOneMessage toLower st uID username altname).users.find?
          (fun u => decide (u.uid = uID)) = some d1 ∧
        d1.counter = some (d.counter.getD 0 + 1) ∧
        (userPlusOneMessage toLower st uID username altname).users.length = st.users.length) := by
  obtain ⟨d1, e1, e2, e3, e4⟩ := plusOneMessages_fresh toLower db uID names habsent h1 (by omega)
  refine ⟨?_, ?_, ?_, ?_⟩
  · rw [e1, filter_append_last uID db.users d1 habsent e2]
    rfl
  · have hfit : fitsUint32 ((names.length : Nat) : Int) = true := by
      rw [fitsUint32_iff]; omega
    refine ⟨{ Uid := d1.uid, Counter := names.length, VoteCounter := 0,
              Username := d1.username.getD "", AltUsername := d1.altUsername.getD "" }, ?_, rfl, e2⟩
    unfold getUser findOneUser
    rw [e1, find_append_last uID db.users d1 habsent e2]
    simp [decodeUser, e3, e4, decodeUint32, hfit]
  · intro st username altname hst
    have htarget := upsertTarget_of_absent uID st.users hst
    have hfit : fitsInt64 ((upsertTarget uID st.users).counter.getD 0 + 1) = true := by
      rw [htarget, fitsInt64_iff]
      simp only [Option.getD_none]
      omega
    have hstep := userPlusOneMessage_users toLower st uID username altname hfit
    rw [htarget, upsertPut_of_absent uID _ st.users hst] at hstep
    exact ⟨_, hstep, rfl, by simp [plusOneDoc]⟩
  · intro st username altname d hfind hfit
    have htarget := find_upsertTarget uID st.users d hfind
    have hstep := userPlusOneMessage_users toLower st uID username altname (by rw [htarget]; exact hfit)
    rw [htarget] at hstep
    have hduid : d.uid = uID := by
      have := List.find?_some hfind
      simpa using this
    refine ⟨plusOneDoc toLower d username altname, ?_, rfl, ?_⟩
    · rw [hstep]
      exact find_upsertPut uID _ st.users hduid
    · rw [hstep]
      exact length_upsertPut_of_found uID _ d st.users hfind

/-- C4, amended, at three calls with different names on the empty store: `Counter == 3`. -/
theorem plusOneMessages_counter_witness :
    (∃ r, getUser (plusOneMessages asciiToLower emptyStore 5
        [("Alice", "Al"), ("ALICE", ""), ("", "x")]) 5 = .ok r ∧ r.Counter = 3 ∧ r.Uid = 5) :=
  (plusOneMessages_counter asciiToLower emptyStore 5 [("Alice", "Al"), ("ALICE", ""), ("", "x")]
    (by decide) (by decide) (by decide)).2.1

/-! ## Vote counter -/

theorem makeVotes_existing (uID : Int) (amounts : List Int) :
    ∀ (st : Store) (base : List UserDoc) (d : UserDoc) (v : Int),
      st.users = base ++ [d] → (∀ u ∈ base, u.uid ≠ uID) → d.uid = uID →
      d.voteCounter = some v → d.counter = none → runningSumsFit v amounts = true →
      ∃ d1, (makeVotes st uID amounts).users = base ++ [d1] ∧ d1.uid = uID ∧
        d1.voteCounter = some (v + amounts.sum) ∧ d1.counter = none := by
  induction amounts with
  | nil =>
    intro st base d v hst _ hd hv hc _
    exact ⟨d, by simpa [makeVotes] using hst, hd, by simpa using hv, hc⟩
  | cons a rest ih =>
    intro st base d v hst hbase hd hv hc hfit
    simp only [runningSumsFit, Bool.and_eq_true] at hfit
    have htarget : upsertTarget uID st.users = d := by
      rw [hst]; exact upsertTarget_append_last uID base d hbase hd
    have hstep := userMakeVote_users st uID a (by rw [htarget, hv]; exact hfit.1)
    rw [htarget, hst, upsertPut_append_last uID base d _ hbase hd, hv] at hstep
    obtain ⟨d1, e1, e2, e3, e4⟩ := ih (userMakeVote st uID a) base _ (v + a) hstep hbase hd
      rfl hc hfit.2
    refine ⟨d1, by simpa [makeVotes] using e1, e2, ?_, e4⟩
    rw [e3, List.sum_cons, add_assoc]

theorem makeVotes_fresh (db : Store) (uID : Int) (amounts : List Int)
    (habsent : ∀ u ∈ db.users, u.uid ≠ uID) (hne : amounts ≠ [])
    (hfit : runningSumsFit 0 amounts = true) :
    ∃ d1, (makeVotes db uID amounts).users = db.users ++ [d1] ∧ d1.uid = uID ∧
      d1.voteCounter = some amounts.sum ∧ d1.counter = none := by
  cases amounts with
  | nil => exact absurd rfl hne
  | cons a rest =>
    simp only [runningSumsFit, Bool.and_eq_true] at hfit
    have htarget := upsertTarget_of_absent uID db.users habsent
    have hstep := userMakeVote_users db uID a (by rw [htarget]; exact hfit.1)
    rw [htarget, upsertPut_of_absent uID _ db.users habsent] at hstep
    obtain ⟨d1, e1, e2, e3, e4⟩ := makeVotes_existing uID rest (userMakeVote db uID a) db.users _
      (0 + a) hstep habsent rfl rfl rfl hfit.2
    refine ⟨d1, by simpa [makeVotes] using e1, e2, ?_, e4⟩
    rw [e3, List.sum_cons, zero_add]

/-- C5, as stated, fails: after `userMakeVote(5, +3)` and `userMakeVote(5, -5)`
on the empty store the stored voteCounter is -2, and `getUser` does not read
it back: the value does not decode into the `uint32` field `VoteCounter`.
The same happens for the sum 2^32 after the amounts 4294967295 and 1. -/
theorem makeVotes_negative_counterexample :
    (∀ u ∈ emptyStore.users, u.uid ≠ 5) ∧
    (makeVotes emptyStore 5 [3, -5]).users =
      [{ uid := 5, counter := none, voteCounter := some (-2), username := none, altUsername := none }] ∧
    getUser (makeVotes emptyStore 5 [3, -5]) 5 = .error .decodeFailure ∧
    (makeVotes emptyStore 5 [4294967295, 1]).users =
      [{ uid := 5, counter := none, voteCounter := some 4294967296, username := none, altUsername := none }] ∧
    getUser (makeVotes emptyStore 5 [4294967295, 1]) 5 = .error .decodeFailure := by
  decide

/-- C5, amended: for a uid without record and a non-empty sequence of signed
amounts whose running sums stay in the int64 range of the store, after the
sequential calls of `userMakeVote` the record of the uid exists and its stored
voteCounter is the signed sum of the amounts; when that sum is in
`0 .. 2^32-1`, `getUser` succeeds and `VoteCounter` is that sum. -/
theorem makeVotes_sum (db : Store) (uID : Int) (amounts : List Int)
    (habsent : ∀ u ∈ db.users, u.uid ≠ uID) (hne : amounts ≠ [])
    (hfit : runningSumsFit 0 amounts = true) :
    (∃ d, (makeVotes db uID amounts).users = db.users ++ [d] ∧ d.uid = uID ∧
      d.voteCounter = some amounts.sum) ∧
    (fitsUint32 amounts.sum = true →
      ∃ r, getUser (makeVotes db uID amounts) uID = .ok r ∧ r.Uid = uID ∧
        (r.VoteCounter : Int) = amounts.sum) := by
  obtain ⟨d1, e1, e2, e3, e4⟩ := makeVotes_fresh db uID amounts habsent hne hfit
  refine ⟨⟨d1, e1, e2, e3⟩, ?_⟩
  intro h32
  refine ⟨{ Uid := d1.uid, Counter := 0, VoteCounter := amounts.sum.toNat,
            Username := d1.username.getD "", AltUsername := d1.altUsername.getD "" }, ?_, e2, ?_⟩
  · unfold getUser findOneUser
    rw [e1, find_append_last uID db.users d1 habsent e2]
    simp [decodeUser, e3, e4, decodeUint32, h32]
  · rw [fitsUint32_iff] at h32
    exact Int.toNat_of_nonneg h32.1

/-- C5, amended, at the example of the claim: `userMakeVote(5, +3)` then `userMakeVote(5, -1)` stores voteCounter 2 and `getUser` reads 2 back. -/
theorem makeVotes_sum_witness :
    (∃ d, (makeVotes emptyStore 5 [3, -1]).users = emptyStore.users ++ [d] ∧ d.uid = 5 ∧
      d.voteCounter = some 2) ∧
    (∃ r, getUser (makeVotes emptyStore 5 [3, -1]) 5 = .ok r ∧ r.Uid = 5 ∧
      (r.VoteCounter : Int) = 2) :=
  ⟨(makeVotes_sum emptyStore 5 [3, -1] (by decide) (by decide) (by decide)).1,
   (makeVotes_sum emptyStore 5 [3, -1] (by decide) (by decide) (by decide)).2 (by decide)⟩

/-! ## Username lookup -/

theorem upsertTarget_mem_or_fresh (uID : Int) (users : List UserDoc) :
    upsertTarget uID users ∈ users ∨ upsertTarget uID users =
      { uid := uID, counter := none, voteCounter := none, username := none, altUsername := none } := by
  induction users with
  | nil => exact Or.inr rfl
  | cons b rest ih =>
    by_cases hb : b.uid = uID
    · left; simp [upsertTarget, hb]
    · simp only [upsertTarget, hb, if_false]
      rcases ih with h | h
      · exact Or.inl (List.mem_cons_of_mem _ h)
      · exact Or.inr h

theorem mem_upsertPut_self (uID : Int) (d1 : UserDoc) (users : List UserDoc) :
    d1 ∈ upsertPut uID d1 users := by
  induction users with
  | nil => simp [upsertPut]
  | cons b rest ih =>
    by_cases hb : b.uid = uID
    · simp [upsertPut, hb]
    · simp only [upsertPut, hb, if_false]
      exact List.mem_cons_of_mem _ ih

theorem mem_upsertPut (uID : Int) (d1 u : UserDoc) (users : List UserDoc)
    (h : u ∈ upsertPut uID d1 users) : u = d1 ∨ u ∈ users := by
  induction users with
  | nil => simp [upsertPut] at h; exact Or.inl h
  | cons b rest ih =>
    by_cases hb : b.uid = uID
    · simp only [upsertPut, hb, if_true, List.mem_cons] at h
      rcases h with h | h
      · exact Or.inl h
      · exact Or.inr (List.mem_cons_of_mem _ h)
    · simp only [upsertPut, hb, if_false, List.mem_cons] at h
      rcases h with h | h
      · exact Or.inr (by rw [h]; exact List.mem_cons_self _ _)
      · rcases ih h with h1 | h1
        · exact Or.inl h1
        · exact Or.inr (List.mem_cons_of_mem _ h1)

theorem decodeUint32_ok (v : Option Int) (h : fitsUint32 (v.getD 0) = true) :
    decodeUint32 v = .ok (v.getD 0).toNat := by
  cases v with
  | none => rfl
  | some n =>
    simp only [Option.getD_some] at h
    simp [decodeUint32, h]

theorem decodeUser_ok (d : UserDoc) (hc : fitsUint32 (d.counter.getD 0) = true)
    (hv : fitsUint32 (d.voteCounter.getD 0) = true) :
    decodeUser d = .ok (UserRecord.mk d.uid (d.counter.getD 0).toNat
      (d.voteCounter.getD 0).toNat (d.username.getD "") (d.altUsername.getD "")) := by
  unfold decodeUser
  rw [decodeUint32_ok _ hc, decodeUint32_ok _ hv]

/-- C7, as stated, fails: user 5 has a stored voteCounter of -1; after
`userPlusOneMessage(5, "Alice", "Al")` the record has username "alice" and no
other record has it, yet `getRatingFromUsername("ALICE")` returns a decode
error. -/
theorem username_lookup_counterexample :
    ("Alice".length ≠ 0) ∧ asciiToLower "ALICE" = asciiToLower "Alice" ∧
    (∀ u ∈ downvotedStore.users, u.username = some (asciiToLower "Alice") → u.uid = 5) ∧
    getRatingFromUsername asciiToLower
      (userPlusOneMessage asciiToLower downvotedStore 5 "Alice" "Al") "ALICE" = .error .decodeFailure := by
  decide

/-- C7, amended: when in addition the counters of the records of `uid` are
readable as `uint32` before and after the increment, the lookup is
case-insensitive: after `userPlusOneMessage(uid, s, altname)` with non-empty
`s`, on a store where no record of another uid has username `lower(s)`, the
record of `uid` stores username `lower(s)` and altUsername `altname` (both
`$set` entries are applied), and `getRatingFromUsername(t)` succeeds with
`Userid == uid` for every `t` with `lower(t) == lower(s)`. -/
theorem username_lookup (toLower : String → String) (db : Store) (uID : Int)
    (s altname t : String) (hs : s.length ≠ 0) (ht : toLower t = toLower s)
    (hother : ∀ u ∈ db.users, u.username = some (toLower s) → u.uid = uID)
    (hdec : ∀ u ∈ db.users, u.uid = uID →
      fitsUint32 (u.counter.getD 0) = true ∧ fitsUint32 (u.counter.getD 0 + 1) = true ∧
      fitsUint32 (u.voteCounter.getD 0) = true) :
    (∃ d, (userPlusOneMessage toLower db uID s altname).users.find?
        (fun u => decide (u.uid = uID)) = some d ∧
      d.username = some (toLower s) ∧ d.altUsername = some altname) ∧
    (∃ r, getRatingFromUsername toLower (userPlusOneMessage toLower db uID s altname) t = .ok r ∧
      r.Userid = uID) := by
  -- the upsert target and its counters
  have htuid := upsertTarget_uid uID db.users
  have htfit : fitsUint32 ((upsertTarget uID db.users).counter.getD 0 + 1) = true ∧
      fitsUint32 ((upsertTarget uID db.users).voteCounter.getD 0) = true := by
    rcases upsertTarget_mem_or_fresh uID db.users with h | h
    · exact ⟨(hdec _ h htuid).2.1, (hdec _ h htuid).2.2⟩
    · rw [h]; exact ⟨rfl, rfl⟩
  have hfit64 : fitsInt64 ((upsertTarget uID db.users).counter.getD 0 + 1) = true := by
    have := (fitsUint32_iff _).mp htfit.1
    rw [fitsInt64_iff]; omega
  have hstep := userPlusOneMessage_users toLower db uID s altname hfit64
  have hd1user : (plusOneDoc toLower (upsertTarget uID db.users) s altname).username =
      some (toLower s) := by
    simp [plusOneDoc, hs]
  have hd1uid : (plusOneDoc toLower (upsertTarget uID db.users) s altname).uid = uID := htuid
  refine ⟨⟨_, by rw [hstep]; exact find_upsertPut uID _ db.users hd1uid, hd1user, rfl⟩, ?_⟩
  unfold getRatingFromUsername findOneUser
  rw [ht, hstep]
  cases hfind : (upsertPut uID (plusOneDoc toLower (upsertTarget uID db.users) s altname)
      db.users).find? (fun d => decide (d.username = some (toLower s))) with
  | none =>
    have := List.find?_eq_none.mp hfind _ (mem_upsertPut_self uID _ db.users)
    simp [hd1user] at this
  | some u =>
    have hu : u.username = some (toLower s) := by
      have := List.find?_some hfind
      simpa using this
    have hmem := mem_upsertPut uID _ u db.users (List.mem_of_find?_eq_some hfind)
    have hgood : u.uid = uID ∧ fitsUint32 (u.counter.getD 0) = true ∧
        fitsUint32 (u.voteCounter.getD 0) = true := by
      rcases hmem with h | h
      · rw [h]
        exact ⟨hd1uid, by simpa [plusOneDoc] using htfit.1, by simpa [plusOneDoc] using htfit.2⟩
      · have huid := hother u h hu
        exact ⟨huid, (hdec u h huid).1, (hdec u h huid).2.2⟩
    simp only [decodeUser_ok u hgood.2.1 hgood.2.2]
    exact ⟨_, rfl, hgood.1⟩

/-- C7, amended, at the example of the claim: activity recorded for "Alice" is found by "ALICE". -/
theorem username_lookup_witness :
    ∃ r, getRatingFromUsername asciiToLower
      (userPlusOneMessage asciiToLower emptyStore 5 "Alice" "Al") "ALICE" = .ok r ∧ r.Userid = 5 :=
  (username_lookup asciiToLower emptyStore 5 "Alice" "Al" "ALICE" (by decide) (by decide)
    (by decide) (by decide)).2

/-! ## Rating of a user -/

theorem ratingOf_exact (user : UserRecord)
    (h : user.Counter + user.VoteCounter * 10 < 4294967296) :
    ratingOf user = (user.Counter : Int) + (user.VoteCounter : Int) * 10 := by
  unfold ratingOf VOTE_RATING_MULTIPLY
  have h1 : user.VoteCounter * 10 % 2 ^ 32 = user.VoteCounter * 10 := Nat.mod_eq_of_lt (by omega)
  have h2 : (user.Counter + user.VoteCounter * 10) % 2 ^ 32 = user.Counter + user.VoteCounter * 10 :=
    Nat.mod_eq_of_lt (by omega)
  rw [h1, h2]
  push_cast
  rfl

/-- C2, evaluated at failing inputs. After five calls of `userPlusOneMessage`
and one `userMakeVote(5, 429496730)` the record of user 5 has counter 5 and
voteCounter 429496730; `getRatingFromUserID(5)` returns rating 9, while
`c + v * 10` is 4294967305. After one `userPlusOneMessage` and
`userMakeVote(5, -2)` the record has voteCounter -2 and `getRatingFromUserID(5)`
returns a decode error. The example of the claim (counter 5, voteCounter 2)
does give 25. -/
theorem getRatingFromUserID_uint32_wrap :
    bigVoteStore.users = [UserDoc.mk 5 (some 5) (some 429496730) (some "alice") (some "Al")] ∧
    getRatingFromUserID bigVoteStore 5 = .ok { Rating := 9, Userid := 5 } ∧
    ((5 : Int) + 429496730 * (VOTE_RATING_MULTIPLY : Int) = 4294967305) ∧
    negativeVoteStore.users = [UserDoc.mk 5 (some 1) (some (-2)) (some "alice") (some "Al")] ∧
    getRatingFromUserID negativeVoteStore 5 = .error .decodeFailure ∧
    getRatingFromUserID (Store.mk [UserDoc.mk 5 (some 5) (some 2) (some "alice") (some "Al")] [] []) 5 =
      .ok { Rating := 25, Userid := 5 } := by
  decide

/-- C10, evaluated at failing inputs. In `bigVoteStore` exactly one message
has ids (7, 1), its author 5 has exactly one record (counter 5, voteCounter
429496730); `getRatingFromMessage` returns rating 4294967305 and
`getRatingFromUserID` returns rating 9. In `negativeVoteStore` (counter 1,
voteCounter -2) `getRatingFromMessage` returns rating -19 and
`getRatingFromUserID` returns a decode error. -/
theorem rating_paths_disagree :
    (getMessage 7 1 bigVoteStore.messages).length = 1 ∧
    (bigVoteStore.users.filter (fun u => decide (u.uid = 5))).length = 1 ∧
    getRatingFromMessage bigVoteStore 7 1 = .ok { Rating := 4294967305, Userid := 5 } ∧
    getRatingFromUserID bigVoteStore 5 = .ok { Rating := 9, Userid := 5 } ∧
    (getMessage 7 1 negativeVoteStore.messages).length = 1 ∧
    (negativeVoteStore.users.filter (fun u => decide (u.uid = 5))).length = 1 ∧
    getRatingFromMessage negativeVoteStore 7 1 = .ok { Rating := -19, Userid := 5 } ∧
    getRatingFromUserID negativeVoteStore 5 = .error .decodeFailure := by
  decide

/-! ## Settings map -/

theorem mapGet_mapSet_self (m : SettingsMap) (k : Int) (v : DyncmicSetting) :
    mapGet (mapSet m k v) k = some v := by
  induction m with
  | nil => simp [mapSet, mapGet]
  | cons p t ih =>
    obtain ⟨k1, v1⟩ := p
    by_cases h : k1 = k
    · simp [mapSet, mapGet, h]
    · simp [mapSet, mapGet, h, ih]

theorem mapGet_mapSet_ne (m : SettingsMap) (k k2 : Int) (v : DyncmicSetting) (hne : k2 ≠ k) :
    mapGet (mapSet m k v) k2 = mapGet m k2 := by
  induction m with
  | nil => simp [mapSet, mapGet, Ne.symm hne]
  | cons p t ih =>
    obtain ⟨k1, v1⟩ := p
    by_cases h : k1 = k
    · subst h
      simp [mapSet, mapGet, Ne.symm hne]
    · by_cases h2 : k1 = k2
      · subst h2
        simp only [mapSet, h, if_false, mapGet, if_true]
      · simp only [mapSet, h, if_false, mapGet, h2, ih]

theorem length_mapSet_of_none (m : SettingsMap) (k : Int) (v : DyncmicSetting)
    (h : mapGet m k = none) : (mapSet m k v).length = m.length + 1 := by
  induction m with
  | nil => simp [mapSet]
  | cons p t ih =>
    obtain ⟨k1, v1⟩ := p
    by_cases h1 : k1 = k
    · simp [mapGet, h1] at h
    · simp only [mapGet, h1, if_false] at h
      simp [mapSet, h1, ih h]

theorem mem_keys_mapSet (m : SettingsMap) (k k2 : Int) (v : DyncmicSetting)
    (h : k2 ∈ (mapSet m k v).map Prod.fst) : k2 = k ∨ k2 ∈ m.map Prod.fst := by
  induction m with
  | nil => simp [mapSet] at h; exact Or.inl h
  | cons p t ih =>
    obtain ⟨k1, v1⟩ := p
    by_cases h1 : k1 = k
    · simp only [mapSet, h1, if_true, List.map_cons, List.mem_cons] at h
      rcases h with h | h
      · exact Or.inl h
      · exact Or.inr (by simp [h])
    · simp only [mapSet, h1, if_false, List.map_cons, List.mem_cons] at h
      rcases h with h | h
      · exact Or.inr (by simp [h])
      · rcases ih h with h2 | h2
        · exact Or.inl h2
        · exact Or.inr (by simp [h2])

theorem nodup_keys_mapSet (m : SettingsMap) (k : Int) (v : DyncmicSetting)
    (h : (m.map Prod.fst).Nodup) : ((mapSet m k v).map Prod.fst).Nodup := by
  induction m with
  | nil => simp [mapSet]
  | cons p t ih =>
    obtain ⟨k1, v1⟩ := p
    simp only [List.map_cons, List.nodup_cons] at h
    by_cases h1 : k1 = k
    · subst h1
      simpa [mapSet] using h
    · simp only [mapSet, h1, if_false, List.map_cons, List.nodup_cons]
      refine ⟨?_, ih h.2⟩
      intro hmem
      rcases mem_keys_mapSet t k k1 v hmem with h2 | h2
      · exact h1 h2
      · exact h.1 h2

theorem readRows_eq_storeAll (rows : List SettingsDoc) :
    ∀ ret : SettingsMap, readRows ret rows = storeAll ret (decodedRows rows) := by
  induction rows with
  | nil => intro ret; rfl
  | cons row rest ih =>
    intro ret
    cases h : decodeSetting row with
    | error e => simp [readRows, decodedRows, h, ih]
    | ok s => simp [readRows, decodedRows, h, ih, storeAll]

theorem mem_decodedRows (rows : List SettingsDoc) (s : DyncmicSetting) :
    s ∈ decodedRows rows ↔ ∃ row ∈ rows, decodeSetting row = .ok s := by
  induction rows with
  | nil => simp [decodedRows]
  | cons row rest ih =>
    cases h : decodeSetting row with
    | error e => simp [decodedRows, h, ih]
    | ok s1 =>
      simp only [decodedRows, h, List.mem_cons, ih, exists_eq_or_imp, Except.ok.injEq]
      constructor
      · rintro (h1 | h1)
        · exact Or.inl h1.symm
        · exact Or.inr h1
      · rintro (h1 | h1)
        · exact Or.inl h1.symm
        · exact Or.inr h1

theorem decodedRows_append (a b : List SettingsDoc) :
    decodedRows (a ++ b) = decodedRows a ++ decodedRows b := by
  induction a with
  | nil => rfl
  | cons row rest ih =>
    cases h : decodeSetting row with
    | error e => simp [decodedRows, h, ih]
    | ok s => simp [decodedRows, h, ih]

theorem mapGet_storeAll (k : Int) (ss : List DyncmicSetting) :
    ∀ ret : SettingsMap, mapGet (storeAll ret ss) k =
      (match lastFor k ss with
       | some x => some x
       | none => mapGet ret k) := by
  induction ss with
  | nil => intro ret; rfl
  | cons s rest ih =>
    intro ret
    simp only [storeAll, ih, lastFor]
    cases hl : lastFor k rest with
    | some x => rfl
    | none =>
      by_cases hk : s.ChatID = k
      · subst hk
        simp only [if_true, mapGet_mapSet_self]
      · simp only [hk, if_false, mapGet_mapSet_ne _ _ _ _ (Ne.symm hk)]

theorem lastFor_some (k : Int) (ss : List DyncmicSetting) (x : DyncmicSetting)
    (h : lastFor k ss = some x) : x ∈ ss ∧ x.ChatID = k := by
  induction ss with
  | nil => simp [lastFor] at h
  | cons s rest ih =>
    simp only [lastFor] at h
    cases hl : lastFor k rest with
    | some y =>
      rw [hl] at h
      simp only [Option.some.injEq] at h
      subst h
      exact ⟨List.mem_cons_of_mem _ (ih hl).1, (ih hl).2⟩
    | none =>
      rw [hl] at h
      by_cases hk : s.ChatID = k
      · simp only [hk, if_true, Option.some.injEq] at h
        subst h
        exact ⟨List.mem_cons_self _ _, hk⟩
      · simp [hk] at h

theorem lastFor_isSome (ss : List DyncmicSetting) (s : DyncmicSetting) (h : s ∈ ss) :
    ∃ x, lastFor s.ChatID ss = some x := by
  induction ss with
  | nil => simp at h
  | cons s1 rest ih =>
    simp only [lastFor]
    cases hl : lastFor s.ChatID rest with
    | some y => exact ⟨y, rfl⟩
    | none =>
      rcases List.mem_cons.mp h with h1 | h1
      · subst h1; exact ⟨s, by simp⟩
      · obtain ⟨x, hx⟩ := ih h1
        rw [hl] at hx
        simp at hx

theorem lastFor_of_nodup (ss : List DyncmicSetting) (s : DyncmicSetting) (h : s ∈ ss)
    (hnd : (ss.map (fun x => x.ChatID)).Nodup) : lastFor s.ChatID ss = some s := by
  obtain ⟨x, hx⟩ := lastFor_isSome ss s h
  have hx2 := lastFor_some _ ss x hx
  have : x = s := by
    exact List.inj_on_of_nodup_map hnd hx2.1 h hx2.2
  rw [hx, this]

theorem length_storeAll_of_nodup (ss : List DyncmicSetting) :
    ∀ ret : SettingsMap, (∀ s ∈ ss, mapGet ret s.ChatID = none) →
      (ss.map (fun x => x.ChatID)).Nodup →
      (storeAll ret ss).length = ret.length + ss.length := by
  induction ss with
  | nil => intro ret _ _; rfl
  | cons s rest ih =>
    intro ret hnone hnd
    simp only [List.map_cons, List.nodup_cons] at hnd
    simp only [storeAll]
    rw [ih (mapSet ret s.ChatID s) ?_ hnd.2, length_mapSet_of_none ret _ _
      (hnone s (List.mem_cons_self _ _))]
    · simp only [List.length_cons]; omega
    · intro s2 hs2
      have hne : s2.ChatID ≠ s.ChatID := by
        intro heq
        exact hnd.1 (by rw [← heq]; exact List.mem_map_of_mem _ hs2)
      rw [mapGet_mapSet_ne _ _ _ _ hne]
      exact hnone s2 (List.mem_cons_of_mem _ hs2)

theorem nodup_keys_storeAll (ss : List DyncmicSetting) :
    ∀ ret : SettingsMap, (ret.map Prod.fst).Nodup → ((storeAll ret ss).map Prod.fst).Nodup := by
  induction ss with
  | nil => intro ret h; exact h
  | cons s rest ih =>
    intro ret h
    exact ih _ (nodup_keys_mapSet ret _ _ h)

theorem length_decodedRows_of_valid (rows : List SettingsDoc)
    (h : ∀ row ∈ rows, rowDecodes row = true) :
    (decodedRows rows).length = rows.length := by
  induction rows with
  | nil => rfl
  | cons row rest ih =>
    have hrow := h row (List.mem_cons_self _ _)
    unfold rowDecodes at hrow
    cases hs : decodeSetting row with
    | error e => simp [hs] at hrow
    | ok s => simp [decodedRows, hs, ih (fun r hr => h r (List.mem_cons_of_mem _ hr))]

theorem decodedRows_skip (pre post : List SettingsDoc) (corrupt : SettingsDoc)
    (h : rowDecodes corrupt = false) :
    decodedRows (pre ++ corrupt :: post) = decodedRows (pre ++ post) := by
  rw [decodedRows_append, decodedRows_append]
  unfold rowDecodes at h
  cases hs : decodeSetting corrupt with
  | error e => simp [decodedRows, hs]
  | ok s => simp [hs] at h

/-- C8: `readChatsSettings` returns a map (no key twice) that has an entry
under the `ChatID` of every row that decodes, and whose every entry is the
decoded value of a stored row that decodes, under the `ChatID` it has: no
entry comes from a row that fails to decode. When the decodable rows have
pairwise distinct chatIDs, the size of the map is the number of decodable
rows and the entry of each decodable row is the value of that row. N rows that
decode, with distinct chatIDs, plus one row that does not decode, anywhere in
the scan, give a map of size N. In general the entry under a chatID is the
value of the last row of the scan that decodes to that chatID. -/
theorem readChatsSettings_spec (db : Store) :
    ((readChatsSettings db).map Prod.fst).Nodup ∧
    (∀ row ∈ db.settings, ∀ s, decodeSetting row = .ok s →
      ∃ v, mapGet (readChatsSettings db) s.ChatID = some v) ∧
    (∀ k v, mapGet (readChatsSettings db) k = some v →
      v.ChatID = k ∧ ∃ row ∈ db.settings, decodeSetting row = .ok v) ∧
    (((decodedRows db.settings).map (fun s => s.ChatID)).Nodup →
      (readChatsSettings db).length = (decodedRows db.settings).length ∧
      ∀ row ∈ db.settings, ∀ s, decodeSetting row = .ok s →
        mapGet (readChatsSettings db) s.ChatID = some s) ∧
    (∀ (pre post : List SettingsDoc) (corrupt : SettingsDoc),
      db.settings = pre ++ corrupt :: post → rowDecodes corrupt = false →
      (∀ row ∈ pre ++ post, rowDecodes row = true) →
      ((decodedRows (pre ++ post)).map (fun s => s.ChatID)).Nodup →
      (readChatsSettings db).length = (pre ++ post).length) ∧
    (∀ k, mapGet (readChatsSettings db) k = lastFor k (decodedRows db.settings)) := by
  have hread : readChatsSettings db = storeAll [] (decodedRows db.settings) :=
    readRows_eq_storeAll db.settings []
  have hget : ∀ k, mapGet (readChatsSettings db) k = lastFor k (decodedRows db.settings) := by
    intro k
    rw [hread, mapGet_storeAll]
    cases lastFor k (decodedRows db.settings) <;> rfl
  have hlen : ((decodedRows db.settings).map (fun s => s.ChatID)).Nodup →
      (readChatsSettings db).length = (decodedRows db.settings).length := by
    intro hnd
    rw [hread, length_storeAll_of_nodup _ [] (fun _ _ => rfl) hnd]
    simp
  refine ⟨?_, ?_, ?_, ?_, ?_, hget⟩
  · rw [hread]
    exact nodup_keys_storeAll _ [] (by simp)
  · intro row hrow s hs
    rw [hget]
    exact lastFor_isSome _ s ((mem_decodedRows _ s).mpr ⟨row, hrow, hs⟩)
  · intro k v hv
    rw [hget] at hv
    have := lastFor_some k _ v hv
    exact ⟨this.2, (mem_decodedRows _ v).mp this.1⟩
  · intro hnd
    refine ⟨hlen hnd, ?_⟩
    intro row hrow s hs
    rw [hget]
    exact lastFor_of_nodup _ s ((mem_decodedRows _ s).mpr ⟨row, hrow, hs⟩) hnd
  · intro pre post corrupt hsplit hbad hvalid hnd
    have hskip := decodedRows_skip pre post corrupt hbad
    rw [hlen (by rw [hsplit, hskip]; exact hnd), hsplit, hskip]
    exact length_decodedRows_of_valid _ hvalid

/-- C8 at the example of the claim: rows `{1: pause = true}` and `{2: pause = false}` give a map of size 2 with these values, and a corrupt row between the two leaves the size at 2. -/
theorem readChatsSettings_spec_witness :
    (readChatsSettings twoChatStore).length = 2 ∧
    mapGet (readChatsSettings twoChatStore) 1 =
      some { ChatID := 1, Pause := true, LogRecipients := [] } ∧
    mapGet (readChatsSettings twoChatStore) 2 =
      some { ChatID := 2, Pause := false, LogRecipients := [10, 11] } ∧
    (readChatsSettings corruptedStore).length = 2 :=
  ⟨((readChatsSettings_spec twoChatStore).2.2.2.1 (by decide)).1,
   ((readChatsSettings_spec twoChatStore).2.2.2.1 (by decide)).2
     (SettingsDoc.mk (some (.int 1)) (some (.bool true)) (some (.ints []))) (by decide)
     { ChatID := 1, Pause := true, LogRecipients := [] } (by decide),
   ((readChatsSettings_spec twoChatStore).2.2.2.1 (by decide)).2
     (SettingsDoc.mk (some (.int 2)) (some (.bool false)) (some (.ints [10, 11]))) (by decide)
     { ChatID := 2, Pause := false, LogRecipients := [10, 11] } (by decide),
   (readChatsSettings_spec corruptedStore).2.2.2.2.1 (twoChatStore.settings.take 1)
     (twoChatStore.settings.drop 1) corruptRow (by decide) (by decide)
     (by decide) (by decide)⟩

/-! ## Writing settings -/

theorem decodeSetting_setSettings (d : SettingsDoc) (s : DyncmicSetting) :
    decodeSetting (setSettings d s) = .ok s := by
  cases s
  rfl

theorem matchesChatID_setSettings (k : Int) (d : SettingsDoc) (s : DyncmicSetting) :
    matchesChatID k (setSettings d s) = decide (s.ChatID = k) := rfl

theorem decode_of_matches (k : Int) (row : SettingsDoc) (s : DyncmicSetting)
    (hm : matchesChatID k row = true) (hd : decodeSetting row = .ok s) : s.ChatID = k := by
  obtain ⟨c, p, l⟩ := row
  unfold matchesChatID at hm
  unfold decodeSetting at hd
  cases c with
  | none => simp at hm
  | some v =>
    cases v with
    | int n =>
      simp only [decide_eq_true_eq] at hm
      simp only [decodeInt64] at hd
      cases hp : decodeBool p with
      | error e => simp [hp] at hd
      | ok pv =>
        cases hl : decodeInt64Slice l with
        | error e => simp [hp, hl] at hd
        | ok lv =>
          simp only [hp, hl, Except.ok.injEq] at hd
          rw [← hd]
          exact hm
    | bool b => simp at hm
    | str x => simp at hm
    | ints xs => simp [decodeInt64] at hd
    | null => simp at hm

theorem lastFor_decodedRows_cons (k : Int) (row : SettingsDoc) (rest : List SettingsDoc) :
    lastFor k (decodedRows (row :: rest)) =
      (match lastFor k (decodedRows rest) with
       | some x => some x
       | none =>
         match decodeSetting row with
         | .ok s => if s.ChatID = k then some s else none
         | .error _ => none) := by
  cases h : decodeSetting row with
  | error e => simp only [decodedRows, h]; cases lastFor k (decodedRows rest) <;> rfl
  | ok s => simp only [decodedRows, h, lastFor]

theorem lastFor_none_of_no_document (k : Int) (rows : List SettingsDoc)
    (h : ∀ row ∈ rows, isDocumentFor k row = false) : lastFor k (decodedRows rows) = none := by
  cases hl : lastFor k (decodedRows rows) with
  | none => rfl
  | some x =>
    have hx := lastFor_some k _ x hl
    obtain ⟨row, hrow, hdec⟩ := (mem_decodedRows rows x).mp hx.1
    have := h row hrow
    simp [isDocumentFor, hdec, hx.2] at this

theorem no_document_of_filter_nil (k : Int) (rows : List SettingsDoc)
    (h : (rows.filter (isDocumentFor k)).length = 0) : ∀ row ∈ rows, isDocumentFor k row = false := by
  intro row hrow
  have hnil : rows.filter (isDocumentFor k) = [] := List.length_eq_zero.mp h
  have := (List.filter_eq_nil_iff.mp hnil) row hrow
  simpa using this

theorem not_matches_of_not_document (k : Int) (row : SettingsDoc)
    (h : isDocumentFor k row = false) : matchesChatID k row = false := by
  unfold isDocumentFor at h
  simp only [Bool.or_eq_false_iff] at h
  exact h.1

theorem lastFor_after_write (c : Int) (s : DyncmicSetting) (hs : s.ChatID = c)
    (rows : List SettingsDoc) (h : (rows.filter (isDocumentFor c)).length ≤ 1) :
    lastFor c (decodedRows (settingsUpdateOne c s rows)) = some s := by
  induction rows with
  | nil =>
    simp only [settingsUpdateOne]
    rw [lastFor_decodedRows_cons, decodeSetting_setSettings]
    simp [decodedRows, lastFor, hs]
  | cons row rest ih =>
    by_cases hm : matchesChatID c row = true
    · have hdoc : isDocumentFor c row = true := by simp [isDocumentFor, hm]
      have hrest : (rest.filter (isDocumentFor c)).length = 0 := by
        simp only [List.filter_cons, hdoc, if_true, List.length_cons] at h
        omega
      simp only [settingsUpdateOne, hm, if_true]
      rw [lastFor_decodedRows_cons, decodeSetting_setSettings,
        lastFor_none_of_no_document c rest (no_document_of_filter_nil c rest hrest)]
      simp [hs]
    · have hm1 : matchesChatID c row = false := by simpa using hm
      simp only [settingsUpdateOne, hm1, Bool.false_eq_true, if_false]
      have hrest : (rest.filter (isDocumentFor c)).length ≤ 1 := by
        by_cases hdoc : isDocumentFor c row = true
        · simp only [List.filter_cons, hdoc, if_true, List.length_cons] at h
          omega
        · have hdoc1 : isDocumentFor c row = false := by simpa using hdoc
          simp only [List.filter_cons, hdoc1, Bool.false_eq_true, if_false] at h
          exact h
      rw [lastFor_decodedRows_cons, ih hrest]

theorem lastFor_other_after_write (c k : Int) (s : DyncmicSetting) (hs : s.ChatID = c)
    (hk : k ≠ c) (rows : List SettingsDoc) :
    lastFor k (decodedRows (settingsUpdateOne c s rows)) = lastFor k (decodedRows rows) := by
  have hsk : ¬ s.ChatID = k := by rw [hs]; exact Ne.symm hk
  induction rows with
  | nil =>
    simp only [settingsUpdateOne]
    rw [lastFor_decodedRows_cons, decodeSetting_setSettings]
    simp [decodedRows, lastFor, hsk]
  | cons row rest ih =>
    by_cases hm : matchesChatID c row = true
    · simp only [settingsUpdateOne, hm, if_true]
      rw [lastFor_decodedRows_cons, lastFor_decodedRows_cons, decodeSetting_setSettings]
      cases hd : decodeSetting row with
      | error e => simp [hsk]
      | ok s1 =>
        have h1 : ¬ s1.ChatID = k := by
          rw [decode_of_matches c row s1 hm hd]; exact Ne.symm hk
        simp [hsk, h1]
    · have hm1 : matchesChatID c row = false := by simpa using hm
      simp only [settingsUpdateOne, hm1, Bool.false_eq_true, if_false]
      rw [lastFor_decodedRows_cons, lastFor_decodedRows_cons, ih]

theorem matches_count_after_write (c : Int) (s : DyncmicSetting) (hs : s.ChatID = c)
    (rows : List SettingsDoc) (h : (rows.filter (isDocumentFor c)).length ≤ 1) :
    ((settingsUpdateOne c s rows).filter (matchesChatID c)).length = 1 := by
  induction rows with
  | nil => simp [settingsUpdateOne, matchesChatID_setSettings, hs]
  | cons row rest ih =>
    by_cases hm : matchesChatID c row = true
    · have hdoc : isDocumentFor c row = true := by simp [isDocumentFor, hm]
      have hrest : (rest.filter (isDocumentFor c)).length = 0 := by
        simp only [List.filter_cons, hdoc, if_true, List.length_cons] at h
        omega
      have hnone : rest.filter (matchesChatID c) = [] := by
        rw [List.filter_eq_nil_iff]
        intro r hr
        have := not_matches_of_not_document c r (no_document_of_filter_nil c rest hrest r hr)
        simp [this]
      simp [settingsUpdateOne, hm, List.filter_cons, matchesChatID_setSettings, hs, hnone]
    · have hm1 : matchesChatID c row = false := by simpa using hm
      have hrest : (rest.filter (isDocumentFor c)).length ≤ 1 := by
        by_cases hdoc : isDocumentFor c row = true
        · simp only [List.filter_cons, hdoc, if_true, List.length_cons] at h
          omega
        · have hdoc1 : isDocumentFor c row = false := by simpa using hdoc
          simp only [List.filter_cons, hdoc1, Bool.false_eq_true, if_false] at h
          exact h
      simp only [settingsUpdateOne, hm1, List.filter_cons, Bool.false_eq_true, if_false]
      exact ih hrest

theorem mapGet_readChatsSettings (db : Store) (k : Int) :
    mapGet (readChatsSettings db) k = lastFor k (decodedRows db.settings) := by
  unfold readChatsSettings
  rw [readRows_eq_storeAll, mapGet_storeAll]
  cases lastFor k (decodedRows db.settings) <;> rfl

/-- C9, as stated, fails when `settings.ChatID` differs from `chatID`: on
the empty store, `writeChatSettings(1, {ChatID: 2, Pause: true})` leaves no
settings document for chat 1, the loaded map has no entry for 1, and the entry
for chat 2, absent before the write, now holds the written value. -/
theorem writeChatSettings_foreign_chatID_counterexample :
    (∀ k, (emptyStore.settings.filter (isDocumentFor k)).length ≤ 1) ∧
    ((writeChatSettings emptyStore 1 { ChatID := 2, Pause := true, LogRecipients := [] }).settings.filter
      (matchesChatID 1)).length = 0 ∧
    mapGet (readChatsSettings
      (writeChatSettings emptyStore 1 { ChatID := 2, Pause := true, LogRecipients := [] })) 1 = none ∧
    mapGet (readChatsSettings emptyStore) 2 = none ∧
    mapGet (readChatsSettings
      (writeChatSettings emptyStore 1 { ChatID := 2, Pause := true, LogRecipients := [] })) 2 =
      some { ChatID := 2, Pause := true, LogRecipients := [] } := by
  refine ⟨fun k => by simp [emptyStore], ?_, ?_, ?_, ?_⟩ <;> decide

/-- C9, amended: when `settings.ChatID == chatID` and the store holds at most
one settings document per chatID, after `writeChatSettings(chatID, settings)`
the filter `{"chatid": chatID}` finds exactly one document,
`readChatsSettings` returns a map whose entry for `chatID` is `settings`, and
the entry of every other chatID is as before the write. -/
theorem writeChatSettings_roundtrip (db : Store) (chatID : Int) (settings : DyncmicSetting)
    (hid : settings.ChatID = chatID)
    (hone : ∀ k, (db.settings.filter (isDocumentFor k)).length ≤ 1) :
    ((writeChatSettings db chatID settings).settings.filter (matchesChatID chatID)).length = 1 ∧
    mapGet (readChatsSettings (writeChatSettings db chatID settings)) chatID = some settings ∧
    (∀ k, k ≠ chatID →
      mapGet (readChatsSettings (writeChatSettings db chatID settings)) k =
        mapGet (readChatsSettings db) k) := by
  refine ⟨?_, ?_, ?_⟩
  · exact matches_count_after_write chatID settings hid db.settings (hone chatID)
  · rw [mapGet_readChatsSettings]
    exact lastFor_after_write chatID settings hid db.settings (hone chatID)
  · intro k hk
    rw [mapGet_readChatsSettings, mapGet_readChatsSettings]
    exact lastFor_other_after_write chatID k settings hid hk db.settings

/-- C9, amended, at a concrete store: rewriting the settings of chat 2 in `twoChatStore` is read back, and the entry of chat 1 is unchanged. -/
theorem writeChatSettings_roundtrip_witness :
    mapGet (readChatsSettings (writeChatSettings twoChatStore 2
      { ChatID := 2, Pause := true, LogRecipients := [7] })) 2 =
      some { ChatID := 2, Pause := true, LogRecipients := [7] } ∧
    mapGet (readChatsSettings (writeChatSettings twoChatStore 2
      { ChatID := 2, Pause := true, LogRecipients := [7] })) 1 =
      some { ChatID := 1, Pause := true, LogRecipients := [] } := by
  have hone : ∀ k, (twoChatStore.settings.filter (isDocumentFor k)).length ≤ 1 := by
    intro k
    by_cases h1 : k = 1
    · subst h1; decide
    · by_cases h2 : k = 2
      · subst h2; decide
      · have e1 : ((1 : Int) = k) = False := eq_false (fun h => h1 h.symm)
        have e2 : ((2 : Int) = k) = False := eq_false (fun h => h2 h.symm)
        simp [twoChatStore, writeChatSettings, settingsUpdateOne, emptyStore, setSettings,
          matchesChatID, isDocumentFor, decodeSetting, decodeInt64, decodeBool,
          decodeInt64Slice, e1, e2]
  have h := writeChatSettings_roundtrip twoChatStore 2
    { ChatID := 2, Pause := true, LogRecipients := [7] } rfl hone
  refine ⟨h.2.1, ?_⟩
  rw [h.2.2 1 (by decide)]
  decide

/-! ## Where the two rating paths agree -/

theorem getRatingFromMessage_single (db : Store) (chatID messageID : Int) (m : ChatMessage)
    (u : UserDoc) (hm : getMessage chatID messageID db.messages = [m])
    (hu : db.users.filter (fun x => decide (x.uid = m.UserID)) = [u])
    (hfit : fitsInt64 (ifNull u.counter 0 + ifNull u.voteCounter 0 * 10) = true) :
    getRatingFromMessage db chatID messageID =
      .ok { Rating := ifNull u.counter 0 + ifNull u.voteCounter 0 * 10, Userid := m.UserID } := by
  unfold getRatingFromMessage
  rw [hm]
  simp only [lookupUser, List.map_cons, List.map_nil, hu, unwindUser, List.flatMap_cons,
    List.flatMap_nil, List.append_nil, calculateRating, clearOutput, decodeScores]
  have h10 : ((VOTE_RATING_MULTIPLY : Nat) : Int) = 10 := rfl
  rw [h10, hfit]
  rfl

theorem getRatingFromUserID_in_range (db : Store) (uID : Int) (d : UserDoc)
    (hfind : db.users.find? (fun x => decide (x.uid = uID)) = some d)
    (hc : fitsUint32 (d.counter.getD 0) = true) (hv : fitsUint32 (d.voteCounter.getD 0) = true)
    (hsum : d.counter.getD 0 + d.voteCounter.getD 0 * 10 < 4294967296) :
    getRatingFromUserID db uID =
      .ok { Rating := d.counter.getD 0 + d.voteCounter.getD 0 * 10, Userid := uID } := by
  have hduid : d.uid = uID := by
    have := List.find?_some hfind
    simpa using this
  have hc0 := ((fitsUint32_iff _).mp hc).1
  have hv0 := ((fitsUint32_iff _).mp hv).1
  unfold getRatingFromUserID findOneUser
  rw [hfind]
  simp only [decodeUser_ok d hc hv]
  have hr : ratingOf (UserRecord.mk d.uid (d.counter.getD 0).toNat (d.voteCounter.getD 0).toNat
      (d.username.getD "") (d.altUsername.getD "")) =
      d.counter.getD 0 + d.voteCounter.getD 0 * 10 := by
    rw [ratingOf_exact _ (by simp only; omega)]
    simp only [Int.toNat_of_nonneg hc0, Int.toNat_of_nonneg hv0]
  rw [hr, hduid]

theorem find_eq_head_filter (p : UserDoc → Bool) (l : List UserDoc) :
    l.find? p = (l.filter p).head? := by
  induction l with
  | nil => rfl
  | cons a rest ih =>
    by_cases ha : p a = true
    · simp only [List.find?, List.filter, ha, List.head?_cons]
    · have ha1 : p a = false := by simpa using ha
      simp only [List.find?, List.filter, ha1, ih]

theorem rating_paths_agree_in_range (db : Store) (chatID messageID : Int) (m : ChatMessage)
    (u : UserDoc) (hm : getMessage chatID messageID db.messages = [m])
    (hu : db.users.filter (fun x => decide (x.uid = m.UserID)) = [u])
    (hc : fitsUint32 (u.counter.getD 0) = true) (hv : fitsUint32 (u.voteCounter.getD 0) = true)
    (hsum : u.counter.getD 0 + u.voteCounter.getD 0 * 10 < 4294967296) :
    getRatingFromMessage db chatID messageID = getRatingFromUserID db m.UserID := by
  have hc0 := (fitsUint32_iff _).mp hc
  have hv0 := (fitsUint32_iff _).mp hv
  have hfind : db.users.find? (fun x => decide (x.uid = m.UserID)) = some u := by
    rw [find_eq_head_filter, hu]
    rfl
  rw [getRatingFromUserID_in_range db m.UserID u hfind hc hv hsum]
  exact getRatingFromMessage_single db chatID messageID m u hm hu
    (by unfold ifNull; rw [fitsInt64_iff]; omega)

end PokeBot
